import Mathlib

/-!
Shallow embedding of the change-detection and notification-dispatch engine of
the push-live-results repository: the result diff (notifications.ts:
detectResultChanges / notifyResultChanges / sendToFollowers), the Firestore
cache (cache.ts: getCachedData / setCachedData / getCacheKey), the byte-level
sanitizer of the upstream client (liveResultsClient.ts:
sanitizeControlCharacters), and the on-demand getclassresults coordinator
(index.ts, api handler).  Stateful or I/O-bound pieces are modelled by
explicit state passing: the Firestore cache as a keyed store plus an explicit
clock, the push transport as a function argument whose per-token outcomes are
collected (the `Promise.allSettled` pattern of the source), Firestore reads of
the selections collection as a list argument.
-/

set_option autoImplicit false

namespace PushLive

/-- A value held in a runner's sparse split map: the upstream JSON stores,
under each key, either a string (possibly empty) or a number. -/
inductive SplitVal where
  | str (s : String)
  | num (n : Int)
  deriving DecidableEq, Repr

/-- Radio control metadata from the getclassresults response (notifications.ts
`SplitControl`): numeric control code and human-readable name. -/
structure SplitControl where
  code : Nat
  name : String
  deriving DecidableEq, Repr

/-- One runner's record in a class result list (types.ts `ResultEntry`,
extended by the split map the diff engine reads).  `progress` is used
numerically by the source (`(r.progress ?? 0) < 100`, JavaScript coercing the
field to a number); it is modelled as that numeric value, `none` standing for
an absent field (the `?? 0` default).  `splits` is `none` when the field is
absent, as in `newResult.splits &&` / `oldResult.splits?.[code]`. -/
structure ResultEntry where
  place : String
  name : String
  club : String
  result : String
  status : Nat
  timeplus : String
  progress : Option Int
  start : Nat
  splits : Option (List (String × SplitVal))
  deriving DecidableEq, Repr

/-- A push message (types.ts `NotificationPayload`): title, body and the
string-to-string data record, modelled as an association list in the insertion
order of the source's object literals. -/
structure NotificationPayload where
  title : String
  body : String
  data : List (String × String)
  deriving DecidableEq, Repr

/-- JavaScript `Number(x)` restricted to the values that reach it here:
numbers pass through, decimal-integer strings parse, anything else is NaN
(modelled as `none`). -/
def jsNumber : SplitVal → Option Int
  | .num n => some n
  | .str s => s.toInt?

/-- English ordinal suffix (notifications.ts `ordinal`).  The JavaScript `%`
operator truncates, hence `Int.tmod`. -/
def ordinal (n : Int) : String :=
  if 11 ≤ n ∧ n ≤ 13 then toString n ++ "th"
  else if Int.tmod n 10 = 1 then toString n ++ "st"
  else if Int.tmod n 10 = 2 then toString n ++ "nd"
  else if Int.tmod n 10 = 3 then toString n ++ "rd"
  else toString n ++ "th"

/-- `ordinal(Number(x))`: on NaN every branch of `ordinal` falls through to
the default template, which renders the string "NaNth". -/
def ordinalOfNumber : Option Int → String
  | some n => ordinal n
  | none => "NaNth"

/-- Format centiseconds to m:ss (notifications.ts `formatCentiseconds`).
`Math.floor` of a quotient is floor division; `String(seconds).padStart(2,
"0")` pads a one-character rendering with a single zero. -/
def formatCentiseconds (cs : Int) : String :=
  let totalSeconds := Int.fdiv cs 100
  let minutes := Int.fdiv totalSeconds 60
  let seconds := Int.tmod totalSeconds 60
  let s := toString seconds
  toString minutes ++ ":" ++ (if s.length < 2 then "0" ++ s else s)

/-- The status-code table of notifications.ts `getStatusText`. -/
def statusMap : List (Nat × String) :=
  [(0, "OK"), (1, "Did Not Start"), (2, "Did Not Finish"), (3, "Mispunch"),
   (4, "Disqualified"), (5, "Over Time"), (9, "Not Started"),
   (10, "Not Started"), (11, "Walk Over"), (12, "Moved")]

/-- Human-readable status text; an unrecognized code falls back to
"Unknown" (`statusMap[status] || "Unknown"`). -/
def getStatusText (status : Nat) : String :=
  (statusMap.lookup status).getD "Unknown"

/-- `oldSplit === undefined || oldSplit === ""`: the old side had no split
value for the control. -/
def hadNoSplit : Option SplitVal → Bool
  | none => true
  | some (.str s) => s = ""
  | some (.num _) => false

/-- `newSplit !== undefined && newSplit !== ""`: the new side holds a split
value for the control. -/
def hasNewSplit : Option SplitVal → Bool
  | none => false
  | some (.str s) => s ≠ ""
  | some (.num _) => true

/-- `splits?.[code]`: optional-chained lookup in the sparse split map. -/
def splitLookup (splits : Option (List (String × SplitVal))) (key : String) :
    Option SplitVal :=
  splits.bind (fun m => m.lookup key)

/-- `place !== undefined && place !== "" && place !== "-"`: the place-at-split
is rendered (a numeric value always passes the two string comparisons). -/
def placeShown : Option SplitVal → Bool
  | none => false
  | some (.str s) => s ≠ "" ∧ s ≠ "-"
  | some (.num _) => true

/-- The notification built for one newly arrived split (detectResultChanges,
section 1 body). -/
def splitPayload (newR : ResultEntry) (className competitionId : String)
    (control : SplitControl) (m : List (String × SplitVal)) :
    NotificationPayload :=
  let code := Nat.repr control.code
  let place := m.lookup (code ++ "_place")
  let timeplus := m.lookup (code ++ "_timeplus")
  let body0 := newR.name ++ " passed " ++ control.name
  let body1 :=
    match place with
    | some pv =>
      if placeShown (some pv) then
        body0 ++ ", " ++ ordinalOfNumber (jsNumber pv) ++ " place"
      else body0
    | none => body0
  let body2 :=
    match timeplus with
    | some (.num t) =>
      body1 ++ (if t = 0 then " (leading!)" else " (+" ++ formatCentiseconds t ++ ")")
    | _ => body1
  { title := className ++ " — " ++ control.name,
    body := body2,
    data := [("competitionId", competitionId), ("className", className),
             ("runnerName", newR.name), ("type", "split"), ("control", code)] }

/-- The per-control body of detectResultChanges' split loop: a payload when
the control's split value went from absent/empty to present. -/
def splitCheck (oldR newR : ResultEntry) (className competitionId : String)
    (m : List (String × SplitVal)) (control : SplitControl) :
    Option NotificationPayload :=
  let code := Nat.repr control.code
  let oldSplit := splitLookup oldR.splits code
  let newSplit := m.lookup code
  if hadNoSplit oldSplit && hasNewSplit newSplit then
    some (splitPayload newR className competitionId control m)
  else none

/-- detectResultChanges, section 1: one payload per split-control whose value
went from absent/empty to present, in metadata order. -/
def splitPayloads (oldR newR : ResultEntry) (className competitionId : String)
    (splitcontrols : List SplitControl) : List NotificationPayload :=
  match newR.splits with
  | none => []
  | some m =>
    if splitcontrols.length > 0 then
      splitcontrols.filterMap (splitCheck oldR newR className competitionId m)
    else []

/-- The payload of a successful finish (detectResultChanges, section 2,
status 0 branch). -/
def finishedPayload (newR : ResultEntry) (className competitionId : String) :
    NotificationPayload :=
  let body0 := newR.name ++ " finished in " ++ newR.result
  let body1 :=
    if newR.place ≠ "" ∧ newR.place ≠ "-" then
      body0 ++ ", " ++ ordinalOfNumber newR.place.toInt? ++ " place"
    else body0
  let body2 :=
    if newR.timeplus ≠ "" ∧ newR.timeplus ≠ "+" then
      body1 ++ " (" ++ newR.timeplus ++ ")"
    else body1
  { title := className ++ " — Finished!",
    body := body2,
    data := [("competitionId", competitionId), ("className", className),
             ("runnerName", newR.name), ("type", "finish")] }

/-- The status-problem payload (the identical object literal of
detectResultChanges sections 2 and 3). -/
def statusProblemPayload (newR : ResultEntry) (className competitionId : String) :
    NotificationPayload :=
  let statusText := getStatusText newR.status
  { title := className ++ " — " ++ statusText,
    body := newR.name ++ " — " ++ statusText,
    data := [("competitionId", competitionId), ("className", className),
             ("runnerName", newR.name), ("type", "status")] }

/-- detectResultChanges, section 2: the runner crossed the finish threshold;
status 0 yields the finish payload, any other status the problem payload. -/
def finishPayloads (oldR newR : ResultEntry) (className competitionId : String) :
    List NotificationPayload :=
  let wasRunning := (oldR.progress.getD 0) < 100
  let nowFinished := 100 ≤ (newR.progress.getD 0)
  if wasRunning ∧ nowFinished then
    if newR.status = 0 then [finishedPayload newR className competitionId]
    else [statusProblemPayload newR className competitionId]
  else []

/-- detectResultChanges, section 3: status changed to a problem code while the
runner has not just crossed the finish threshold. -/
def midRaceStatusPayloads (oldR newR : ResultEntry)
    (className competitionId : String) : List NotificationPayload :=
  let wasRunning := (oldR.progress.getD 0) < 100
  let nowFinished := 100 ≤ (newR.progress.getD 0)
  if ¬(wasRunning ∧ nowFinished) ∧ oldR.status ≠ newR.status ∧
      newR.status ≠ 0 ∧ newR.status ≠ 9 ∧ newR.status ≠ 10 then
    [statusProblemPayload newR className competitionId]
  else []

/-- notifications.ts detectResultChanges: the payload list built in program
order — new split passings, then the finish transition, then a mid-race
status problem. -/
def detectResultChanges (oldR newR : ResultEntry)
    (className competitionId : String) (splitcontrols : List SplitControl) :
    List NotificationPayload :=
  splitPayloads oldR newR className competitionId splitcontrols
    ++ finishPayloads oldR newR className competitionId
    ++ midRaceStatusPayloads oldR newR className competitionId

/-- The event kind recorded in a payload's data record. -/
def payloadType (p : NotificationPayload) : Option String :=
  p.data.lookup "type"

/-- One row of the selections collection (types.ts `UserSelection`), as the
live notifications.ts reads it: `runnerName` is the single followed runner
compared by `===`, `fcmToken` is optional. -/
structure UserSelection where
  userId : String
  competitionId : String
  className : String
  runnerName : String
  createdAt : Nat
  fcmToken : Option String
  startTime : Option Nat
  deriving DecidableEq, Repr

/-- `follower.fcmToken` is truthy: present and non-empty. -/
def tokenTruthy (f : UserSelection) : Bool :=
  match f.fcmToken with
  | none => false
  | some t => t ≠ ""

/-- One attempted delivery: the token it went to, the payload, and the settled
outcome of that single send. -/
structure Delivery where
  token : String
  payload : NotificationPayload
  outcome : Except String Unit

/-- notifications.ts sendPushNotification: forwards to the messaging
transport; a failure is logged and rethrown, so the settled outcome of the
attempt is exactly the transport's outcome for that token. -/
def sendPushNotification (transport : String → NotificationPayload → Except String Unit)
    (fcmToken : String) (payload : NotificationPayload) : Except String Unit :=
  transport fcmToken payload

/-- notifications.ts sendToFollowers: one delivery attempt per follower with a
truthy token; `await Promise.allSettled` collects every outcome — success or
failure — and itself never rejects, modelled by totally returning the list of
settled attempts. -/
def sendToFollowers (transport : String → NotificationPayload → Except String Unit)
    (followers : List UserSelection) (payload : NotificationPayload) :
    List Delivery :=
  (followers.filter tokenTruthy).map (fun f =>
    let t := f.fcmToken.getD ""
    { token := t, payload := payload,
      outcome := sendPushNotification transport t payload })

/-- The `Map` notifyResultChanges builds from oldResults by iterating `set`:
a later entry with the same name overwrites an earlier one. -/
def buildOldResultsMap (oldResults : List ResultEntry) :
    String → Option ResultEntry :=
  oldResults.foldl (fun m r => fun n => if n = r.name then some r else m n)
    (fun _ => none)

/-- The body of notifyResultChanges' loop over newResults: skip a runner with
no baseline, skip a runner nobody follows, otherwise send every detected
payload to the runner's followers (`continue` is the empty contribution). -/
def processNewResult (transport : String → NotificationPayload → Except String Unit)
    (selections : List UserSelection) (className competitionId : String)
    (splitcontrols : List SplitControl) (oldResultsMap : String → Option ResultEntry)
    (newR : ResultEntry) : List Delivery :=
  match oldResultsMap newR.name with
  | none => []
  | some oldR =>
    let followers := selections.filter (fun s => s.runnerName = newR.name)
    if followers.length = 0 then []
    else
      (detectResultChanges oldR newR className competitionId splitcontrols).flatMap
        (fun payload => sendToFollowers transport followers payload)

/-- notifications.ts notifyResultChanges, with the Firestore read of the
selections collection and the push transport passed explicitly: returns the
sequence of attempted deliveries. -/
def notifyResultChanges (transport : String → NotificationPayload → Except String Unit)
    (selections : List UserSelection) (competitionId className : String)
    (oldResults newResults : List ResultEntry)
    (splitcontrols : List SplitControl) : List Delivery :=
  if selections.length = 0 then []
  else
    let oldResultsMap := buildOldResultsMap oldResults
    newResults.foldl (fun acc newR =>
      acc ++ processNewResult transport selections className competitionId
        splitcontrols oldResultsMap newR) []

/-- A cache document (types.ts `CachedData`): opaque hash, payload, write
time in epoch milliseconds (`Timestamp.toMillis` normalizes the stored form
to that number). -/
structure CachedData (α : Type) where
  hash : String
  data : α
  timestamp : Int
  deriving DecidableEq, Repr

/-- The api_cache collection as a keyed store. -/
def CacheStore (α : Type) : Type := String → Option (CachedData α)

/-- A store with no documents. -/
def emptyCacheStore (α : Type) : CacheStore α := fun _ => none

/-- cache.ts getCachedData: absent when no document exists for the key or
when `now - timestamp > ttlMs`; otherwise the stored entry. -/
def getCachedData {α : Type} (store : CacheStore α) (cacheKey : String)
    (ttlMs now : Int) : Option (CachedData α) :=
  match store cacheKey with
  | none => none
  | some d => if now - d.timestamp > ttlMs then none else some d

/-- cache.ts setCachedData: unconditional keyed overwrite, write time = call
time. -/
def setCachedData {α : Type} (store : CacheStore α) (cacheKey hash : String)
    (data : α) (now : Int) : CacheStore α :=
  fun k =>
    if k = cacheKey then some { hash := hash, data := data, timestamp := now }
    else store k

/-- A cache-key parameter value (`Record<string, string | number>`). -/
inductive ParamVal where
  | s (v : String)
  | n (v : Int)
  deriving DecidableEq, Repr

/-- The template-literal rendering `${params[key]}` of a parameter value. -/
def ParamVal.render : ParamVal → String
  | .s v => v
  | .n v => toString v

/-- cache.ts getCacheKey: the parameter names sorted, each rendered as
`key=value`, joined with `&`.  Parameter maps are modelled as association
lists in insertion order; `Object.keys` enumerates the names. -/
def getCacheKey (params : List (String × ParamVal)) : String :=
  String.intercalate "&"
    ((((params.map Prod.fst).mergeSort (fun a b => a ≤ b)).map (fun k =>
      k ++ "=" ++ (((params.lookup k).map ParamVal.render).getD ""))))

/-- The byte predicate of liveResultsClient.ts sanitizeControlCharacters:
a control character below 0x20 other than tab, LF, CR. -/
def isCtrlByte (b : Nat) : Bool :=
  b < 0x20 && b != 0x09 && b != 0x0a && b != 0x0d

/-- One iteration of the sanitize loop: read byte i and overwrite it with a
space when it is a bare control character. -/
def sanitizeStep (acc : Array Nat) (i : Nat) : Array Nat :=
  if h : i < acc.size then
    if isCtrlByte acc[i] then acc.set ⟨i, h⟩ 0x20 else acc
  else acc

/-- liveResultsClient.ts sanitizeControlCharacters: the in-place pass over
every index of the byte array. -/
def sanitizeControlCharacters (arr : Array Nat) : Array Nat :=
  (List.range arr.size).foldl sanitizeStep arr

/-- The tri-state result of the upstream client's fetchClassResults
(liveResultsClient.ts fetchFromAPI): OK with optional hash and the results
array, the provider's NOT MODIFIED marker, or a decoded/transport error. -/
inductive FetchResult where
  | ok (hash : Option String) (data : List ResultEntry)
  | notModified (hash : String)
  | error
  deriving DecidableEq, Repr

/-- The HTTP response of the getclassresults case of the api handler. -/
inductive HttpResponse where
  | notModified (hash : String)
  | okData (hash : String) (data : List ResultEntry)
  | httpError (code : Nat) (msg : String)
  deriving DecidableEq, Repr

/-- What one invocation of the getclassresults case did: the response sent,
whether the upstream provider was contacted, which (old, new) pair was handed
to notifyResultChanges (if any), and what was written to the cache (if
anything). -/
structure ClassResultsOutcome where
  response : HttpResponse
  fetchedUpstream : Bool
  notifiedWith : Option (List ResultEntry × List ResultEntry)
  stored : Option (String × List ResultEntry)
  deriving DecidableEq, Repr

/-- `cached && lastHash && cached.hash === lastHash`: a fresh cache document
exists and matches the caller's truthy prior token (`lastHash` is falsy when
absent or the empty string). -/
def tokenMatches (cached : Option (CachedData (List ResultEntry)))
    (lastHash : Option String) : Bool :=
  match cached, lastHash with
  | some c, some h => h ≠ "" && c.hash = h
  | _, _ => false

/-- `resultsResult.hash` is truthy: present and non-empty. -/
def hashTruthy : Option String → Bool
  | none => false
  | some h => h ≠ ""

/-- index.ts, api handler, getclassresults case, as a function of the fresh
cache lookup (`cached`, the result of getCachedData with the class-results
TTL), the caller's last_hash query parameter, and the upstream fetch result.
A fresh cached entry matching the caller's token answers NOT MODIFIED without
contacting upstream; in every other case fetchClassResults is awaited.  On an
OK fetch with a truthy hash the fresh data is served and stored, and is first
diffed against the cached data when a fresh cache document existed (the
stored payload of this key is always the results array, so the source's
`Array.isArray` guard holds exactly when `cached` is present); on NOT
MODIFIED the cached data is served when present; otherwise a 500 error. -/
def handleGetClassResults (cached : Option (CachedData (List ResultEntry)))
    (lastHash : Option String) (upstream : FetchResult) : ClassResultsOutcome :=
  if tokenMatches cached lastHash then
    { response := HttpResponse.notModified ((cached.map CachedData.hash).getD ""),
      fetchedUpstream := false, notifiedWith := none, stored := none }
  else
    match upstream with
    | .ok hash data =>
      if hashTruthy hash then
        { response := HttpResponse.okData (hash.getD "") data,
          fetchedUpstream := true,
          notifiedWith := cached.map (fun c => (c.data, data)),
          stored := some (hash.getD "", data) }
      else
        { response := HttpResponse.httpError 500 "Failed to fetch class results",
          fetchedUpstream := true, notifiedWith := none, stored := none }
    | .notModified h =>
      match cached with
      | some c =>
        { response := HttpResponse.okData c.hash c.data,
          fetchedUpstream := true, notifiedWith := none, stored := none }
      | none =>
        { response := HttpResponse.notModified h,
          fetchedUpstream := true, notifiedWith := none, stored := none }
    | .error =>
      { response := HttpResponse.httpError 500 "Failed to fetch class results",
        fetchedUpstream := true, notifiedWith := none, stored := none }

/-! ### Basic facts about the diff engine -/

/-- A split value cannot be simultaneously absent/empty and present. -/
lemma hadNoSplit_and_hasNewSplit (v : Option SplitVal) :
    (hadNoSplit v && hasNewSplit v) = false := by
  cases v with
  | none => rfl
  | some sv =>
    cases sv with
    | str s => by_cases h : s = "" <;> simp [hadNoSplit, hasNewSplit, h]
    | num n => rfl

/-- When the old and new records carry the same split map, the split loop
produces nothing. -/
lemma splitPayloads_eq_nil_of_splits_eq (oldR newR : ResultEntry)
    (c i : String) (sc : List SplitControl) (h : oldR.splits = newR.splits) :
    splitPayloads oldR newR c i sc = [] := by
  rcases hn : newR.splits with _ | m
  · unfold splitPayloads
    rw [hn]
  · unfold splitPayloads
    rw [hn]
    show (if sc.length > 0 then
        List.filterMap (splitCheck oldR newR c i m) sc else []) = []
    have hfm : List.filterMap (splitCheck oldR newR c i m) sc = [] := by
      apply List.filterMap_eq_nil_iff.mpr
      intro ctl _
      unfold splitCheck
      have hl : splitLookup oldR.splits (Nat.repr ctl.code)
          = m.lookup (Nat.repr ctl.code) := by
        rw [h, hn]; rfl
      simp only [hl, hadNoSplit_and_hasNewSplit (m.lookup (Nat.repr ctl.code))]
      simp
    rw [hfm]
    split <;> rfl

/-- Diffing identical progress values never crosses the finish threshold. -/
lemma finishPayloads_self (r : ResultEntry) (c i : String) :
    finishPayloads r r c i = [] := by
  unfold finishPayloads
  rw [if_neg]
  rintro ⟨h1, h2⟩
  omega

/-- An unchanged status never fires the mid-race problem payload. -/
lemma midRaceStatusPayloads_self (r : ResultEntry) (c i : String) :
    midRaceStatusPayloads r r c i = [] := by
  unfold midRaceStatusPayloads
  rw [if_neg]
  rintro ⟨-, h, -⟩
  exact h rfl

/-- Diffing a record against itself yields no payload at all. -/
lemma detectResultChanges_self (r : ResultEntry) (c i : String)
    (sc : List SplitControl) : detectResultChanges r r c i sc = [] := by
  unfold detectResultChanges
  rw [splitPayloads_eq_nil_of_splits_eq r r c i sc rfl, finishPayloads_self,
    midRaceStatusPayloads_self]
  rfl

@[simp] lemma payloadType_splitPayload (n : ResultEntry) (c i : String)
    (ctl : SplitControl) (m : List (String × SplitVal)) :
    payloadType (splitPayload n c i ctl m) = some "split" := rfl

@[simp] lemma payloadType_finishedPayload (n : ResultEntry) (c i : String) :
    payloadType (finishedPayload n c i) = some "finish" := rfl

@[simp] lemma payloadType_statusProblemPayload (n : ResultEntry) (c i : String) :
    payloadType (statusProblemPayload n c i) = some "status" := rfl

lemma typeBeq_finished_finish (n : ResultEntry) (c i : String) :
    (payloadType (finishedPayload n c i) == some "finish") = true := rfl

lemma typeBeq_finished_status (n : ResultEntry) (c i : String) :
    (payloadType (finishedPayload n c i) == some "status") = false := rfl

lemma typeBeq_statusP_finish (n : ResultEntry) (c i : String) :
    (payloadType (statusProblemPayload n c i) == some "finish") = false := rfl

lemma typeBeq_statusP_status (n : ResultEntry) (c i : String) :
    (payloadType (statusProblemPayload n c i) == some "status") = true := rfl

/-- Crossing the threshold with status 0 yields the finish payload. -/
lemma finishPayloads_eq_finished (oldR newR : ResultEntry) (c i : String)
    (hwas : oldR.progress.getD 0 < 100) (hfin : 100 ≤ newR.progress.getD 0)
    (hs : newR.status = 0) :
    finishPayloads oldR newR c i = [finishedPayload newR c i] := by
  unfold finishPayloads
  show (if oldR.progress.getD 0 < 100 ∧ 100 ≤ newR.progress.getD 0 then
      if newR.status = 0 then [finishedPayload newR c i]
      else [statusProblemPayload newR c i]
    else []) = [finishedPayload newR c i]
  rw [if_pos ⟨hwas, hfin⟩, if_pos hs]

/-- Crossing the threshold with a non-zero status yields the problem payload. -/
lemma finishPayloads_eq_statusProblem (oldR newR : ResultEntry) (c i : String)
    (hwas : oldR.progress.getD 0 < 100) (hfin : 100 ≤ newR.progress.getD 0)
    (hs : newR.status ≠ 0) :
    finishPayloads oldR newR c i = [statusProblemPayload newR c i] := by
  unfold finishPayloads
  show (if oldR.progress.getD 0 < 100 ∧ 100 ≤ newR.progress.getD 0 then
      if newR.status = 0 then [finishedPayload newR c i]
      else [statusProblemPayload newR c i]
    else []) = [statusProblemPayload newR c i]
  rw [if_pos ⟨hwas, hfin⟩, if_neg hs]

/-- A runner who just crossed the threshold is excluded from section 3. -/
lemma midRaceStatusPayloads_eq_nil_of_cross (oldR newR : ResultEntry)
    (c i : String) (hwas : oldR.progress.getD 0 < 100)
    (hfin : 100 ≤ newR.progress.getD 0) :
    midRaceStatusPayloads oldR newR c i = [] := by
  unfold midRaceStatusPayloads
  show (if ¬(oldR.progress.getD 0 < 100 ∧ 100 ≤ newR.progress.getD 0) ∧
        oldR.status ≠ newR.status ∧ newR.status ≠ 0 ∧ newR.status ≠ 9 ∧
        newR.status ≠ 10 then [statusProblemPayload newR c i] else []) = []
  rw [if_neg]
  rintro ⟨h, -⟩
  exact h ⟨hwas, hfin⟩

/-- C3: Diffing any snapshot against itself yields an empty event list: for
every runner record r and every split-control metadata list,
detectResultChanges (r, r, ...) returns an empty payload list — no split
payload, no finish payload, no status payload. -/
theorem detect_self_diff_is_empty (r : ResultEntry) (c i : String)
    (sc : List SplitControl) : detectResultChanges r r c i sc = [] :=
  detectResultChanges_self r c i sc

/-- C1: For a runner whose splits are unchanged and whose progress crosses
from below 100 to at least 100, detectResultChanges emits exactly one
finish-typed payload and no status-typed payload when the new status code is
0, and exactly one status-typed payload and no finish-typed payload when the
new status code is non-zero: the two cases are mutually exclusive. -/
theorem finish_and_status_problem_exclusive (oldR newR : ResultEntry)
    (c i : String) (sc : List SplitControl)
    (_hname : oldR.name = newR.name)
    (hsplits : oldR.splits = newR.splits)
    (hwas : oldR.progress.getD 0 < 100)
    (hfin : 100 ≤ newR.progress.getD 0) :
    ((detectResultChanges oldR newR c i sc).filter
        (fun p => payloadType p == some "finish")).length
      = (if newR.status = 0 then 1 else 0) ∧
    ((detectResultChanges oldR newR c i sc).filter
        (fun p => payloadType p == some "status")).length
      = (if newR.status = 0 then 0 else 1) := by
  by_cases hs : newR.status = 0
  · unfold detectResultChanges
    rw [splitPayloads_eq_nil_of_splits_eq oldR newR c i sc hsplits,
      finishPayloads_eq_finished oldR newR c i hwas hfin hs,
      midRaceStatusPayloads_eq_nil_of_cross oldR newR c i hwas hfin]
    constructor
    · simp [hs, List.filter, typeBeq_finished_finish]
    · simp [hs, List.filter, typeBeq_finished_status]
  · unfold detectResultChanges
    rw [splitPayloads_eq_nil_of_splits_eq oldR newR c i sc hsplits,
      finishPayloads_eq_statusProblem oldR newR c i hwas hfin hs,
      midRaceStatusPayloads_eq_nil_of_cross oldR newR c i hwas hfin]
    constructor
    · simp [hs, List.filter, typeBeq_statusP_finish]
    · simp [hs, List.filter, typeBeq_statusP_status]

/-- A record just before a clean finish, used to instantiate the finish
exclusivity theorem. -/
def wOldC1 : ResultEntry :=
  { place := "", name := "Anton Mörkfors", club := "OK Orion", result := "",
    status := 9, timeplus := "", progress := some 80, start := 0,
    splits := none }

/-- The same runner after a clean finish. -/
def wNewC1 : ResultEntry :=
  { place := "1", name := "Anton Mörkfors", club := "OK Orion",
    result := "17:02", status := 0, timeplus := "", progress := some 100,
    start := 0, splits := none }

/-- Witness for the finish exclusivity theorem: a concrete 80 to 100
transition with status 0 produces one finish payload and no status payload. -/
theorem finish_and_status_problem_exclusive_witness :
    (wOldC1.progress.getD 0 < 100 ∧ 100 ≤ wNewC1.progress.getD 0) ∧
    ((detectResultChanges wOldC1 wNewC1 "H21" "10278" []).filter
        (fun p => payloadType p == some "finish")).length = 1 ∧
    ((detectResultChanges wOldC1 wNewC1 "H21" "10278" []).filter
        (fun p => payloadType p == some "status")).length = 0 := by
  refine ⟨⟨by decide, by decide⟩, ?_, ?_⟩
  · have h := (finish_and_status_problem_exclusive wOldC1 wNewC1 "H21" "10278"
      [] rfl rfl (by decide) (by decide)).1
    simpa [wNewC1] using h
  · have h := (finish_and_status_problem_exclusive wOldC1 wNewC1 "H21" "10278"
      [] rfl rfl (by decide) (by decide)).2
    simpa [wNewC1] using h

/-! ### C4: a newly arrived split fires exactly once -/

/-- The payload selector of the split-once property: a split-typed payload
whose data record points at the given control code. -/
def isSplitPayloadFor (code : String) (p : NotificationPayload) : Bool :=
  payloadType p == some "split" && p.data.lookup "control" == some code

lemma lookupControl_splitPayload (n : ResultEntry) (c i : String)
    (ctl : SplitControl) (m : List (String × SplitVal)) :
    (splitPayload n c i ctl m).data.lookup "control"
      = some (Nat.repr ctl.code) := rfl

lemma isSplitPayloadFor_splitPayload (code : String) (n : ResultEntry)
    (c i : String) (ctl : SplitControl) (m : List (String × SplitVal)) :
    isSplitPayloadFor code (splitPayload n c i ctl m)
      = (Nat.repr ctl.code == code) := by
  unfold isSplitPayloadFor
  rw [payloadType_splitPayload, lookupControl_splitPayload]
  show (true && (some (Nat.repr ctl.code) == some code)) = _
  rw [Bool.true_and]
  rfl

lemma isSplitPayloadFor_finishedPayload (code : String) (n : ResultEntry)
    (c i : String) : isSplitPayloadFor code (finishedPayload n c i) = false := rfl

lemma isSplitPayloadFor_statusProblemPayload (code : String) (n : ResultEntry)
    (c i : String) :
    isSplitPayloadFor code (statusProblemPayload n c i) = false := rfl

/-- Counting split payloads for one code across the split loop: with the old
side empty and the new side present at that code, the loop contributes one
payload per metadata entry rendering to that code. -/
lemma filter_isSplit_filterMap_splitCheck (oldR newR : ResultEntry)
    (c i : String) (m : List (String × SplitVal)) (code : String)
    (hfire : hadNoSplit (splitLookup oldR.splits code) = true)
    (hnewv : hasNewSplit (m.lookup code) = true) :
    ∀ sc : List SplitControl,
      ((sc.filterMap (splitCheck oldR newR c i m)).filter
          (isSplitPayloadFor code)).length
        = sc.countP (fun x => Nat.repr x.code == code) := by
  intro sc
  induction sc with
  | nil => rfl
  | cons x rest ih =>
    rw [List.filterMap_cons, List.countP_cons]
    by_cases hx : Nat.repr x.code = code
    · have hsc : splitCheck oldR newR c i m x
          = some (splitPayload newR c i x m) := by
        unfold splitCheck
        show (if hadNoSplit (splitLookup oldR.splits (Nat.repr x.code)) &&
            hasNewSplit (m.lookup (Nat.repr x.code)) then
          some (splitPayload newR c i x m) else none) = _
        rw [hx, hfire, hnewv]
        rfl
      rw [hsc, List.filter_cons, isSplitPayloadFor_splitPayload, hx]
      simp [ih]
    · by_cases hf : (hadNoSplit (splitLookup oldR.splits (Nat.repr x.code)) &&
          hasNewSplit (m.lookup (Nat.repr x.code))) = true
      · have hsc : splitCheck oldR newR c i m x
            = some (splitPayload newR c i x m) := by
          unfold splitCheck
          show (if hadNoSplit (splitLookup oldR.splits (Nat.repr x.code)) &&
              hasNewSplit (m.lookup (Nat.repr x.code)) then
            some (splitPayload newR c i x m) else none) = _
          rw [hf]
          rfl
        have hbx : (Nat.repr x.code == code) = false := by simp [hx]
        rw [hsc, List.filter_cons, isSplitPayloadFor_splitPayload, hbx]
        simp [ih, hbx]
      · have hsc : splitCheck oldR newR c i m x = none := by
          unfold splitCheck
          show (if hadNoSplit (splitLookup oldR.splits (Nat.repr x.code)) &&
              hasNewSplit (m.lookup (Nat.repr x.code)) then
            some (splitPayload newR c i x m) else none) = none
          rw [Bool.not_eq_true] at hf
          rw [hf]
          rfl
        have hbx : (Nat.repr x.code == code) = false := by simp [hx]
        rw [hsc]
        simp [ih, hbx]

lemma filter_isSplit_splitPayloads (oldR newR : ResultEntry) (c i : String)
    (m : List (String × SplitVal)) (code : String)
    (hnew : newR.splits = some m)
    (hfire : hadNoSplit (splitLookup oldR.splits code) = true)
    (hnewv : hasNewSplit (m.lookup code) = true) (sc : List SplitControl) :
    ((splitPayloads oldR newR c i sc).filter (isSplitPayloadFor code)).length
      = sc.countP (fun x => Nat.repr x.code == code) := by
  unfold splitPayloads
  rw [hnew]
  show ((if sc.length > 0 then
      List.filterMap (splitCheck oldR newR c i m) sc else []).filter
        (isSplitPayloadFor code)).length = _
  by_cases hl : sc.length > 0
  · rw [if_pos hl]
    exact filter_isSplit_filterMap_splitCheck oldR newR c i m code hfire hnewv sc
  · rw [if_neg hl]
    have hsc : sc = [] := by
      cases sc with
      | nil => rfl
      | cons a l => exact absurd (Nat.succ_pos l.length) hl
    rw [hsc]
    rfl

lemma filter_isSplit_finishPayloads (oldR newR : ResultEntry) (c i : String)
    (code : String) :
    (finishPayloads oldR newR c i).filter (isSplitPayloadFor code) = [] := by
  unfold finishPayloads
  show List.filter (isSplitPayloadFor code)
    (if oldR.progress.getD 0 < 100 ∧ 100 ≤ newR.progress.getD 0 then
      if newR.status = 0 then [finishedPayload newR c i]
      else [statusProblemPayload newR c i]
    else []) = []
  split
  · split
    · simp [List.filter, isSplitPayloadFor_finishedPayload]
    · simp [List.filter, isSplitPayloadFor_statusProblemPayload]
  · rfl

lemma filter_isSplit_midRaceStatusPayloads (oldR newR : ResultEntry)
    (c i : String) (code : String) :
    (midRaceStatusPayloads oldR newR c i).filter (isSplitPayloadFor code)
      = [] := by
  unfold midRaceStatusPayloads
  show List.filter (isSplitPayloadFor code)
    (if ¬(oldR.progress.getD 0 < 100 ∧ 100 ≤ newR.progress.getD 0) ∧
        oldR.status ≠ newR.status ∧ newR.status ≠ 0 ∧ newR.status ≠ 9 ∧
        newR.status ≠ 10 then [statusProblemPayload newR c i] else []) = []
  split
  · simp [List.filter, isSplitPayloadFor_statusProblemPayload]
  · rfl

/-- C4: For a runner present in both snapshots whose old record has a
control's split absent or empty and whose new record holds a numeric value
for it, with that control's rendered code appearing once in the metadata
(the source keys the split map by the stringified code),
detectResultChanges returns exactly one split payload for that control, and
diffing the new record against itself returns none for it. -/
theorem split_arrival_fires_once (oldR newR : ResultEntry) (c i : String)
    (sc : List SplitControl) (ctl : SplitControl)
    (m : List (String × SplitVal)) (t : Int)
    (huniq : sc.countP (fun x => Nat.repr x.code == Nat.repr ctl.code) = 1)
    (hnew : newR.splits = some m)
    (hval : m.lookup (Nat.repr ctl.code) = some (SplitVal.num t))
    (hold : hadNoSplit (splitLookup oldR.splits (Nat.repr ctl.code)) = true) :
    ((detectResultChanges oldR newR c i sc).filter
        (isSplitPayloadFor (Nat.repr ctl.code))).length = 1 ∧
    ((detectResultChanges newR newR c i sc).filter
        (isSplitPayloadFor (Nat.repr ctl.code))).length = 0 := by
  have hnewv : hasNewSplit (m.lookup (Nat.repr ctl.code)) = true := by
    rw [hval]; rfl
  constructor
  · unfold detectResultChanges
    rw [List.filter_append, List.filter_append, List.length_append,
      List.length_append, filter_isSplit_finishPayloads,
      filter_isSplit_midRaceStatusPayloads,
      filter_isSplit_splitPayloads oldR newR c i m (Nat.repr ctl.code) hnew
        hold hnewv sc, huniq]
    rfl
  · rw [detectResultChanges_self]
    rfl

/-- The split map of the C4 witness: control 101 newly passed. -/
def c4m : List (String × SplitVal) :=
  [("101", SplitVal.num 26900), ("101_place", SplitVal.str "2"),
   ("101_timeplus", SplitVal.num 1100)]

/-- The C4 witness runner before the split arrived. -/
def c4old : ResultEntry :=
  { place := "", name := "Runner", club := "", result := "", status := 0,
    timeplus := "", progress := some 50, start := 0, splits := some [] }

/-- The C4 witness runner after the split arrived. -/
def c4new : ResultEntry :=
  { place := "", name := "Runner", club := "", result := "", status := 0,
    timeplus := "", progress := some 50, start := 0, splits := some c4m }

/-- The C4 witness control. -/
def c4ctl : SplitControl := { code := 101, name := "Radio K65" }

/-- Witness for the split-once theorem at a concrete snapshot pair. -/
theorem split_arrival_fires_once_witness :
    ((detectResultChanges c4old c4new "H21" "10278" [c4ctl]).filter
        (isSplitPayloadFor (Nat.repr c4ctl.code))).length = 1 ∧
    ((detectResultChanges c4new c4new "H21" "10278" [c4ctl]).filter
        (isSplitPayloadFor (Nat.repr c4ctl.code))).length = 0 :=
  split_arrival_fires_once c4old c4new "H21" "10278" [c4ctl] c4ctl c4m 26900
    (by decide) rfl (by decide) (by decide)

/-! ### C2, C10: the notification pass over a snapshot pair -/

/-- A transport whose outcomes are always successful. -/
def transport0 : String → NotificationPayload → Except String Unit :=
  fun _ _ => Except.ok ()

/-- The C10 witness: one runner in the old list, a different one in the new. -/
def rOldOnly : ResultEntry :=
  { place := "", name := "Alice", club := "", result := "", status := 0,
    timeplus := "", progress := some 50, start := 0, splits := none }

/-- The runner present in the new list of the C10 witness. -/
def rNewOnly : ResultEntry :=
  { place := "", name := "Bob", club := "", result := "", status := 0,
    timeplus := "", progress := some 50, start := 0, splits := none }

/-- A name that occurs nowhere in the old list is absent from the Map built
from it. -/
lemma buildOldResultsMap_eq_none_of_not_mem :
    ∀ (old : List ResultEntry) (base : String → Option ResultEntry)
      (n : String), n ∉ old.map ResultEntry.name →
      old.foldl (fun m r => fun k => if k = r.name then some r else m k)
        base n = base n := by
  intro old
  induction old with
  | nil => intro base n _; rfl
  | cons r rest ih =>
    intro base n hn
    rw [List.map_cons] at hn
    rw [List.foldl_cons,
      ih (fun k => if k = r.name then some r else base k) n
        (fun hh => hn (List.mem_cons_of_mem r.name hh))]
    apply if_neg
    intro he
    apply hn
    rw [he]
    exact List.mem_cons_self r.name (rest.map ResultEntry.name)

/-- C2: Diffing against an empty old result list dispatches nothing, and more
generally every runner of the new list without a record in the old list is
skipped entirely — its loop iteration contributes no payload and no delivery
whatsoever. -/
theorem no_baseline_silence
    (transport : String → NotificationPayload → Except String Unit)
    (selections : List UserSelection) (competitionId className : String)
    (newResults : List ResultEntry) (sc : List SplitControl) :
    (notifyResultChanges transport selections competitionId className []
      newResults sc = []) ∧
    (∀ (oldResults : List ResultEntry) (newR : ResultEntry),
      newR.name ∉ oldResults.map ResultEntry.name →
      processNewResult transport selections className competitionId sc
        (buildOldResultsMap oldResults) newR = []) := by
  constructor
  · unfold notifyResultChanges
    split
    · rfl
    · have hstep : ∀ newR, processNewResult transport selections className
          competitionId sc (buildOldResultsMap []) newR = [] := fun _ => rfl
      suffices h : ∀ (l : List ResultEntry) (acc : List Delivery),
          l.foldl (fun acc newR => acc ++ processNewResult transport selections
            className competitionId sc (buildOldResultsMap []) newR) acc
            = acc by
        exact h newResults []
      intro l
      induction l with
      | nil => intro acc; rfl
      | cons r rest ih =>
        intro acc
        rw [List.foldl_cons, hstep r, List.append_nil]
        exact ih acc
  · intro oldResults newR hn
    unfold processNewResult
    rw [show buildOldResultsMap oldResults newR.name = none from
      buildOldResultsMap_eq_none_of_not_mem oldResults (fun _ => none)
        newR.name hn]

/-- Witness for the baseline-silence theorem: a runner absent from a concrete
non-empty old list contributes nothing. -/
theorem no_baseline_silence_witness :
    processNewResult transport0 [] "H21" "10278" []
      (buildOldResultsMap [rOldOnly]) rNewOnly = [] := by
  have hn : rNewOnly.name ∉ List.map ResultEntry.name [rOldOnly] := by decide
  exact (no_baseline_silence transport0 ([] : List UserSelection) "10278"
    "H21" ([] : List ResultEntry) ([] : List SplitControl)).2 [rOldOnly]
    rNewOnly hn

/-- Membership in a foldl that appends per-element blocks comes from the
accumulator or from one element's block. -/
lemma mem_foldl_append {β γ : Type} (g : γ → List β) :
    ∀ (l : List γ) (acc : List β) (d : β),
      d ∈ l.foldl (fun a x => a ++ g x) acc → d ∈ acc ∨ ∃ x ∈ l, d ∈ g x := by
  intro l
  induction l with
  | nil => intro acc d h; exact Or.inl h
  | cons x rest ih =>
    intro acc d h
    rw [List.foldl_cons] at h
    rcases ih (acc ++ g x) d h with h1 | ⟨y, hy, hd⟩
    · rcases List.mem_append.mp h1 with h2 | h2
      · exact Or.inl h2
      · exact Or.inr ⟨x, List.mem_cons_self x rest, h2⟩
    · exact Or.inr ⟨y, List.mem_cons_of_mem x hy, hd⟩

lemma lookupRunner_splitPayload (n : ResultEntry) (c i : String)
    (ctl : SplitControl) (m : List (String × SplitVal)) :
    (splitPayload n c i ctl m).data.lookup "runnerName" = some n.name := rfl

lemma lookupRunner_finishedPayload (n : ResultEntry) (c i : String) :
    (finishedPayload n c i).data.lookup "runnerName" = some n.name := rfl

lemma lookupRunner_statusProblemPayload (n : ResultEntry) (c i : String) :
    (statusProblemPayload n c i).data.lookup "runnerName" = some n.name := rfl

/-- A successful splitCheck returns precisely the split payload. -/
lemma splitCheck_eq_some (oldR newR : ResultEntry) (c i : String)
    (m : List (String × SplitVal)) (ctl : SplitControl)
    (p : NotificationPayload) (h : splitCheck oldR newR c i m ctl = some p) :
    p = splitPayload newR c i ctl m := by
  unfold splitCheck at h
  have h' : (if hadNoSplit (splitLookup oldR.splits (Nat.repr ctl.code)) &&
      hasNewSplit (m.lookup (Nat.repr ctl.code)) then
    some (splitPayload newR c i ctl m) else none) = some p := h
  split at h'
  · exact (Option.some.inj h').symm
  · exact absurd h' (by simp)

/-- The members of the finish section. -/
lemma mem_finishPayloads (oldR newR : ResultEntry) (c i : String)
    (p : NotificationPayload) (h : p ∈ finishPayloads oldR newR c i) :
    p = finishedPayload newR c i ∨ p = statusProblemPayload newR c i := by
  have h' : p ∈ (if oldR.progress.getD 0 < 100 ∧ 100 ≤ newR.progress.getD 0
      then if newR.status = 0 then [finishedPayload newR c i]
           else [statusProblemPayload newR c i]
      else []) := h
  split at h'
  · split at h'
    · exact Or.inl (List.mem_singleton.mp h')
    · exact Or.inr (List.mem_singleton.mp h')
  · exact absurd h' (List.not_mem_nil p)

/-- The members of the mid-race status section. -/
lemma mem_midRaceStatusPayloads (oldR newR : ResultEntry) (c i : String)
    (p : NotificationPayload) (h : p ∈ midRaceStatusPayloads oldR newR c i) :
    p = statusProblemPayload newR c i := by
  have h' : p ∈ (if ¬(oldR.progress.getD 0 < 100 ∧
        100 ≤ newR.progress.getD 0) ∧ oldR.status ≠ newR.status ∧
        newR.status ≠ 0 ∧ newR.status ≠ 9 ∧ newR.status ≠ 10
      then [statusProblemPayload newR c i] else []) := h
  split at h'
  · exact List.mem_singleton.mp h'
  · exact absurd h' (List.not_mem_nil p)

/-- Every payload the diff produces is keyed by the new record's runner. -/
lemma lookup_runnerName_detect (oldR newR : ResultEntry) (c i : String)
    (sc : List SplitControl) :
    ∀ p ∈ detectResultChanges oldR newR c i sc,
      p.data.lookup "runnerName" = some newR.name := by
  intro p hp
  unfold detectResultChanges at hp
  rcases List.mem_append.mp hp with hp12 | hp3
  · rcases List.mem_append.mp hp12 with hp1 | hp2
    · unfold splitPayloads at hp1
      rcases hn : newR.splits with _ | m
      · rw [hn] at hp1
        exact absurd hp1 (List.not_mem_nil p)
      · rw [hn] at hp1
        have hp1' : p ∈ (if sc.length > 0 then
            List.filterMap (splitCheck oldR newR c i m) sc else []) := hp1
        split at hp1'
        · obtain ⟨ctl, _, hctl⟩ := List.mem_filterMap.mp hp1'
          rw [splitCheck_eq_some oldR newR c i m ctl p hctl]
          exact lookupRunner_splitPayload newR c i ctl m
        · exact absurd hp1' (List.not_mem_nil p)
    · rcases mem_finishPayloads oldR newR c i p hp2 with h | h <;> rw [h]
      · exact lookupRunner_finishedPayload newR c i
      · exact lookupRunner_statusProblemPayload newR c i
  · rw [mem_midRaceStatusPayloads oldR newR c i p hp3]
    exact lookupRunner_statusProblemPayload newR c i

/-- Every delivery of one loop iteration is keyed by that iteration's new
record. -/
lemma lookup_runnerName_processNewResult
    (transport : String → NotificationPayload → Except String Unit)
    (selections : List UserSelection) (c i : String)
    (sc : List SplitControl) (oldMap : String → Option ResultEntry)
    (newR : ResultEntry) :
    ∀ d ∈ processNewResult transport selections c i sc oldMap newR,
      d.payload.data.lookup "runnerName" = some newR.name := by
  intro d hd
  unfold processNewResult at hd
  rcases hm : oldMap newR.name with _ | oldR
  · rw [hm] at hd
    exact absurd hd (List.not_mem_nil d)
  · rw [hm] at hd
    have hd' : d ∈ (if (selections.filter
        (fun s => s.runnerName = newR.name)).length = 0 then ([] : List Delivery)
      else (detectResultChanges oldR newR c i sc).flatMap
        (fun payload => sendToFollowers transport
          (selections.filter (fun s => s.runnerName = newR.name)) payload)) := hd
    split at hd'
    · exact absurd hd' (List.not_mem_nil d)
    · obtain ⟨payload, hpl, hdm⟩ := List.mem_flatMap.mp hd'
      unfold sendToFollowers at hdm
      obtain ⟨f, _, hfd⟩ := List.mem_map.mp hdm
      have hdp : d.payload = payload := by rw [← hfd]
      rw [hdp]
      exact lookup_runnerName_detect oldR newR c i sc payload hpl

/-- C10: A runner present only in the old result list triggers nothing: the
loop ranges over the new list, so every delivered payload is keyed by a
runner of the new list, and in particular never by a runner whose name has
disappeared from it. -/
theorem disappearance_is_silent
    (transport : String → NotificationPayload → Except String Unit)
    (selections : List UserSelection) (competitionId className : String)
    (oldResults newResults : List ResultEntry) (sc : List SplitControl)
    (r : ResultEntry) (_hmem : r ∈ oldResults)
    (habs : r.name ∉ newResults.map ResultEntry.name) :
    (∀ d ∈ notifyResultChanges transport selections competitionId className
        oldResults newResults sc,
      ∃ nr ∈ newResults, d.payload.data.lookup "runnerName" = some nr.name) ∧
    (∀ d ∈ notifyResultChanges transport selections competitionId className
        oldResults newResults sc,
      d.payload.data.lookup "runnerName" ≠ some r.name) := by
  have hkey : ∀ d ∈ notifyResultChanges transport selections competitionId
      className oldResults newResults sc,
      ∃ nr ∈ newResults, d.payload.data.lookup "runnerName" = some nr.name := by
    intro d hd
    unfold notifyResultChanges at hd
    split at hd
    · exact absurd hd (List.not_mem_nil d)
    · have hd' : d ∈ newResults.foldl (fun acc newR => acc ++
          processNewResult transport selections className competitionId sc
            (buildOldResultsMap oldResults) newR) [] := hd
      rcases mem_foldl_append (processNewResult transport selections className
          competitionId sc (buildOldResultsMap oldResults)) newResults [] d hd'
        with h0 | ⟨newR, hnr, hdg⟩
      · exact absurd h0 (List.not_mem_nil d)
      · exact ⟨newR, hnr, lookup_runnerName_processNewResult transport
          selections className competitionId sc (buildOldResultsMap oldResults)
          newR d hdg⟩
  refine ⟨hkey, ?_⟩
  intro d hd heq
  obtain ⟨nr, hnr, hl⟩ := hkey d hd
  rw [hl] at heq
  have hname : nr.name = r.name := Option.some.inj heq
  exact habs (hname ▸ List.mem_map_of_mem ResultEntry.name hnr)

/-- Witness for the disappearance theorem at a concrete snapshot pair. -/
theorem disappearance_is_silent_witness :
    (∀ d ∈ notifyResultChanges transport0 [] "10278" "H21" [rOldOnly]
        [rNewOnly] [],
      ∃ nr ∈ [rNewOnly], d.payload.data.lookup "runnerName" = some nr.name) ∧
    (∀ d ∈ notifyResultChanges transport0 [] "10278" "H21" [rOldOnly]
        [rNewOnly] [],
      d.payload.data.lookup "runnerName" ≠ some rOldOnly.name) :=
  disappearance_is_silent transport0 [] "10278" "H21" [rOldOnly] [rNewOnly] []
    rOldOnly (by decide) (by decide)

/-! ### C5: fan-out to followers is isolated per token -/

/-- C5: sendToFollowers attempts one delivery per follower with a non-empty
token, in order, and the set of attempted tokens does not depend on the
transport's outcomes — a delivery that fails for one token neither removes
nor reorders the attempts for the others, and the call itself always returns
(the allSettled pattern). -/
theorem dispatch_attempts_isolated
    (transport transport' : String → NotificationPayload → Except String Unit)
    (followers : List UserSelection) (payload : NotificationPayload) :
    ((sendToFollowers transport followers payload).map Delivery.token
        = (followers.filter tokenTruthy).map (fun f => f.fcmToken.getD "")) ∧
    ((sendToFollowers transport followers payload).map Delivery.token
        = (sendToFollowers transport' followers payload).map Delivery.token) ∧
    (∀ f ∈ followers, tokenTruthy f = true →
        ∃ d ∈ sendToFollowers transport followers payload,
          d.token = f.fcmToken.getD "" ∧ d.payload = payload) := by
  refine ⟨?_, ?_, ?_⟩
  · unfold sendToFollowers
    rw [List.map_map]
    rfl
  · unfold sendToFollowers
    rw [List.map_map, List.map_map]
    rfl
  · intro f hf ht
    refine ⟨{ token := f.fcmToken.getD "", payload := payload,
              outcome := sendPushNotification transport (f.fcmToken.getD "")
                payload }, ?_, rfl, rfl⟩
    unfold sendToFollowers
    exact List.mem_map_of_mem _ (List.mem_filter.mpr ⟨hf, ht⟩)

/-- A follower with token A. -/
def fTokenA : UserSelection :=
  { userId := "u1", competitionId := "10278", className := "H21",
    runnerName := "Anton Mörkfors", createdAt := 0, fcmToken := some "A",
    startTime := none }

/-- A follower with token B. -/
def fTokenB : UserSelection :=
  { userId := "u2", competitionId := "10278", className := "H21",
    runnerName := "Anton Mörkfors", createdAt := 0, fcmToken := some "B",
    startTime := none }

/-- A transport that rejects deliveries to token A and accepts the rest. -/
def failOnA : String → NotificationPayload → Except String Unit :=
  fun t _ => if t = "A" then Except.error "invalid token" else Except.ok ()

/-- A minimal payload for the dispatch witness. -/
def plWitness : NotificationPayload :=
  { title := "H21 — Finished!", body := "Anton Mörkfors finished", data := [] }

/-- Witness: with token A's delivery failing, both tokens are still
attempted and token B's attempt is present with the same payload. -/
theorem dispatch_attempts_isolated_witness :
    ((sendToFollowers failOnA [fTokenA, fTokenB] plWitness).map Delivery.token
      = ["A", "B"]) ∧
    (∃ d ∈ sendToFollowers failOnA [fTokenA, fTokenB] plWitness,
      d.token = "B" ∧ d.payload = plWitness) := by
  have h := dispatch_attempts_isolated failOnA failOnA [fTokenA, fTokenB]
    plWitness
  constructor
  · rw [h.1]
    rfl
  · exact h.2.2 fTokenB (by decide) (by decide)

/-! ### C6: the cache TTL boundary -/

/-- C6 counterexample: with the clock unchanged between set and get, a get
with maxAge 0 still returns the entry — the entry's age is 0, and the code
expires only when the age strictly exceeds the budget — contradicting the
claim that an immediate get with maxAge 0 returns absent. -/
theorem ttl_zero_immediate_get_counterexample :
    getCachedData (setCachedData (emptyCacheStore Nat) "k" "h" 7 5) "k" 0 5
      = some { hash := "h", data := 7, timestamp := 5 } ∧
    getCachedData (setCachedData (emptyCacheStore Nat) "k" "h" 7 5) "k" 0 5
      ≠ none :=
  ⟨rfl, by decide⟩

/-- C6 amended: an immediate get returns the stored entry for every
non-negative freshness budget, including 0; the entry becomes absent exactly
once the elapsed time strictly exceeds the budget — so a zero budget misses
only from the first strictly later clock reading on. -/
theorem ttl_boundary_amended {α : Type} (store : CacheStore α) (k h : String)
    (p : α) (now ttl t2 : Int) :
    (0 ≤ ttl → getCachedData (setCachedData store k h p now) k ttl now
      = some { hash := h, data := p, timestamp := now }) ∧
    (ttl < t2 - now → getCachedData (setCachedData store k h p now) k ttl t2
      = none) := by
  constructor
  · intro httl
    unfold getCachedData setCachedData
    show (match (if k = k then
        some ({ hash := h, data := p, timestamp := now } : CachedData α)
      else store k) with
      | none => none
      | some d => if now - d.timestamp > ttl then none else some d) = _
    rw [if_pos rfl]
    show (if now - now > ttl then none
      else some ({ hash := h, data := p, timestamp := now } : CachedData α)) = _
    rw [if_neg (by omega)]
  · intro ht
    unfold getCachedData setCachedData
    show (match (if k = k then
        some ({ hash := h, data := p, timestamp := now } : CachedData α)
      else store k) with
      | none => none
      | some d => if t2 - d.timestamp > ttl then none else some d) = none
    rw [if_pos rfl]
    show (if t2 - now > ttl then none
      else some ({ hash := h, data := p, timestamp := now } : CachedData α)) = none
    rw [if_pos (by omega)]

/-- Witness for the amended TTL boundary: set at time 5, immediate get with
budget 3 hits; get at time 9 (age 4) misses. -/
theorem ttl_boundary_amended_witness :
    getCachedData (setCachedData (emptyCacheStore Nat) "k" "h" 7 5) "k" 3 5
      = some { hash := "h", data := 7, timestamp := 5 } ∧
    getCachedData (setCachedData (emptyCacheStore Nat) "k" "h" 7 5) "k" 3 9
      = none := by
  have h := ttl_boundary_amended (emptyCacheStore Nat) "k" "h" 7 5 3 9
  exact ⟨h.1 (by omega), h.2 (by omega)⟩

/-! ### C7: the on-demand getclassresults cache policy -/

/-- C7 counterexample: a fresh cached entry exists (hash "A") but the caller
supplied no prior token; the claim says the cached data is then served
without an upstream fetch, yet the handler contacts upstream and serves the
upstream data. -/
theorem on_demand_cache_policy_counterexample :
    (handleGetClassResults
        (some { hash := "A", data := [rOldOnly], timestamp := 0 }) none
        (FetchResult.ok (some "B") [rNewOnly])).fetchedUpstream = true ∧
    (handleGetClassResults
        (some { hash := "A", data := [rOldOnly], timestamp := 0 }) none
        (FetchResult.ok (some "B") [rNewOnly])).response
      = HttpResponse.okData "B" [rNewOnly] :=
  ⟨rfl, rfl⟩

/-- C7 amended: a fresh cached entry matching the caller's token answers
"unchanged" without contacting upstream; in every other case the upstream is
fetched even when fresh cached data exists — a successful fetch is diffed
against the cached data (when present), stored and served, and the cached
data itself is served only when upstream answers not-modified. -/
theorem on_demand_cache_policy_amended
    (cached : Option (CachedData (List ResultEntry)))
    (lastHash : Option String) (upstream : FetchResult) :
    (tokenMatches cached lastHash = true →
      ∃ c, cached = some c ∧
        handleGetClassResults cached lastHash upstream
          = { response := HttpResponse.notModified c.hash,
              fetchedUpstream := false, notifiedWith := none,
              stored := none }) ∧
    (tokenMatches cached lastHash = false →
      (handleGetClassResults cached lastHash upstream).fetchedUpstream
          = true ∧
      (∀ h data, upstream = FetchResult.ok (some h) data → h ≠ "" →
        handleGetClassResults cached lastHash upstream
          = { response := HttpResponse.okData h data, fetchedUpstream := true,
              notifiedWith := cached.map (fun c => (c.data, data)),
              stored := some (h, data) }) ∧
      (∀ h, upstream = FetchResult.notModified h →
        handleGetClassResults cached lastHash upstream
          = { response := (match cached with
              | some c => HttpResponse.okData c.hash c.data
              | none => HttpResponse.notModified h),
              fetchedUpstream := true, notifiedWith := none,
              stored := none })) := by
  constructor
  · intro htm
    rcases cached with _ | c
    · rcases lastHash with _ | h
      · exact Bool.noConfusion htm
      · exact Bool.noConfusion htm
    · refine ⟨c, rfl, ?_⟩
      unfold handleGetClassResults
      rw [if_pos htm]
      rfl
  · intro htm
    have hni : ¬(tokenMatches cached lastHash = true) := by
      rw [htm]; exact Bool.noConfusion
    refine ⟨?_, ?_, ?_⟩
    · unfold handleGetClassResults
      rw [if_neg hni]
      rcases upstream with ⟨hh, data⟩ | hh | _
      · dsimp only
        by_cases hb : hashTruthy hh = true
        · rw [if_pos hb]
        · rw [if_neg hb]
      · rcases cached with _ | c <;> rfl
      · rfl
    · intro h data hup hne
      subst hup
      unfold handleGetClassResults
      rw [if_neg hni]
      have hht : hashTruthy (some h) = true := by
        unfold hashTruthy
        exact decide_eq_true hne
      show (if hashTruthy (some h) then
          ({ response := HttpResponse.okData ((some h).getD "") data,
             fetchedUpstream := true,
             notifiedWith := cached.map (fun c => (c.data, data)),
             stored := some ((some h).getD "", data) } : ClassResultsOutcome)
        else { response := HttpResponse.httpError 500
                "Failed to fetch class results",
               fetchedUpstream := true, notifiedWith := none,
               stored := none }) = _
      rw [if_pos hht]
      rfl
    · intro h hup
      subst hup
      unfold handleGetClassResults
      rw [if_neg hni]
      rcases cached with _ | c <;> rfl

/-- Witness for the amended policy: the non-matching branch at the concrete
counterexample input — upstream fetched, diffed against the cached entry,
stored and served. -/
theorem on_demand_cache_policy_amended_witness :
    handleGetClassResults
        (some { hash := "A", data := [rOldOnly], timestamp := 0 }) none
        (FetchResult.ok (some "B") [rNewOnly])
      = { response := HttpResponse.okData "B" [rNewOnly],
          fetchedUpstream := true,
          notifiedWith := some ([rOldOnly], [rNewOnly]),
          stored := some ("B", [rNewOnly]) } := by
  have h := ((on_demand_cache_policy_amended
      (some { hash := "A", data := [rOldOnly], timestamp := 0 }) none
      (FetchResult.ok (some "B") [rNewOnly])).2 rfl).2.1 "B" [rNewOnly] rfl
      (by decide)
  exact h

/-! ### C8: the cache key ignores parameter insertion order -/

/-- Association-list lookup on a cons cell, in if form. -/
lemma lookup_cons_pair {β : Type} (x : String × β) (l : List (String × β))
    (k : String) :
    List.lookup k (x :: l) = if k == x.1 then some x.2 else List.lookup k l := by
  obtain ⟨a, b⟩ := x
  rw [List.lookup_cons]
  cases h : k == a <;> simp [h]

/-- Lookup is insertion-order independent on maps with distinct keys. -/
lemma lookup_eq_of_perm {β : Type} :
    ∀ {p q : List (String × β)}, p.Perm q → (p.map Prod.fst).Nodup →
      ∀ k, List.lookup k p = List.lookup k q := by
  intro p q hperm
  induction hperm with
  | nil => intro _ _; rfl
  | @cons x l₁ l₂ h ih =>
    intro hnodup k
    rw [lookup_cons_pair, lookup_cons_pair]
    have hnd : (l₁.map Prod.fst).Nodup := by
      rw [List.map_cons] at hnodup
      exact (List.nodup_cons.mp hnodup).2
    by_cases hk : (k == x.1) = true
    · rw [if_pos hk, if_pos hk]
    · rw [if_neg hk, if_neg hk]
      exact ih hnd k
  | @swap x y l =>
    intro hnodup k
    rw [lookup_cons_pair, lookup_cons_pair, lookup_cons_pair,
      lookup_cons_pair]
    have hxy : y.1 ≠ x.1 := by
      rw [List.map_cons, List.map_cons] at hnodup
      have hh := (List.nodup_cons.mp hnodup).1
      intro he
      exact hh (he ▸ List.mem_cons_self x.1 (l.map Prod.fst))
    by_cases hky : (k == y.1) = true <;> by_cases hkx : (k == x.1) = true
    · exact absurd ((eq_of_beq hky).symm.trans (eq_of_beq hkx)) hxy
    · rw [if_pos hky, if_neg hkx, if_pos hky]
    · rw [if_neg hky, if_pos hkx, if_pos hkx]
    · rw [if_neg hky, if_neg hkx, if_neg hkx, if_neg hky]
  | trans h1 h2 ih1 ih2 =>
    intro hnodup k
    exact (ih1 hnodup k).trans (ih2 ((h1.map Prod.fst).nodup hnodup) k)

/-- Sorting permuted key lists with the string order yields the same list. -/
lemma mergeSort_keys_eq (ks₁ ks₂ : List String) (hperm : ks₁.Perm ks₂) :
    ks₁.mergeSort (fun a b => a ≤ b) = ks₂.mergeSort (fun a b => a ≤ b) := by
  haveI : IsAntisymm String (fun a b => a ≤ b) :=
    ⟨fun a b h1 h2 => le_antisymm h1 h2⟩
  apply List.eq_of_perm_of_sorted (r := fun a b : String => a ≤ b)
  · exact ((List.mergeSort_perm ks₁ _).trans hperm).trans
      (List.mergeSort_perm ks₂ _).symm
  · have htr : ∀ (a b c : String), (a ≤ b : Bool) = true →
        (b ≤ c : Bool) = true → (a ≤ c : Bool) = true :=
      fun _ _ _ hab hbc => decide_eq_true
        (le_trans (of_decide_eq_true hab) (of_decide_eq_true hbc))
    have hto : ∀ (a b : String), ((a ≤ b : Bool) || (b ≤ a : Bool)) = true :=
      fun a b => by rcases le_total a b with h | h <;> simp [h]
    have hp : List.Pairwise (fun a b : String => (a ≤ b : Bool) = true)
        (ks₁.mergeSort (fun a b => a ≤ b)) :=
      List.sorted_mergeSort htr hto ks₁
    exact hp.imp (fun h => of_decide_eq_true h)
  · have htr : ∀ (a b c : String), (a ≤ b : Bool) = true →
        (b ≤ c : Bool) = true → (a ≤ c : Bool) = true :=
      fun _ _ _ hab hbc => decide_eq_true
        (le_trans (of_decide_eq_true hab) (of_decide_eq_true hbc))
    have hto : ∀ (a b : String), ((a ≤ b : Bool) || (b ≤ a : Bool)) = true :=
      fun a b => by rcases le_total a b with h | h <;> simp [h]
    have hp : List.Pairwise (fun a b : String => (a ≤ b : Bool) = true)
        (ks₂.mergeSort (fun a b => a ≤ b)) :=
      List.sorted_mergeSort htr hto ks₂
    exact hp.imp (fun h => of_decide_eq_true h)

/-- C8: getCacheKey is insensitive to parameter insertion order: any two
association lists holding the same key-value pairs (distinct keys) in any
order produce the same cache key. -/
theorem cache_key_insertion_order_invariant (p q : List (String × ParamVal))
    (hperm : p.Perm q) (hnodup : (p.map Prod.fst).Nodup) :
    getCacheKey p = getCacheKey q := by
  unfold getCacheKey
  rw [mergeSort_keys_eq (p.map Prod.fst) (q.map Prod.fst)
    (hperm.map Prod.fst)]
  congr 1
  apply List.map_congr_left
  intro k _
  rw [lookup_eq_of_perm hperm hnodup k]

/-- The P6 parameter map in one insertion order. -/
def p6a : List (String × ParamVal) :=
  [("comp", ParamVal.n 5), ("class", ParamVal.s "H21")]

/-- The P6 parameter map in the other insertion order. -/
def p6b : List (String × ParamVal) :=
  [("class", ParamVal.s "H21"), ("comp", ParamVal.n 5)]

/-- Witness: the two insertion orders of P6 yield the same key. -/
theorem cache_key_insertion_order_invariant_witness :
    getCacheKey p6a = getCacheKey p6b :=
  cache_key_insertion_order_invariant p6a p6b (by decide) (by decide)

/-! ### C9: the byte-level sanitizer -/

/-- One loop iteration characterized on reads: index i is conditionally
replaced, every other index untouched. -/
lemma getElem?_sanitizeStep (acc : Array Nat) (i j : Nat) :
    (sanitizeStep acc i)[j]?
      = if i = j then
          (acc[j]?).map (fun b => if isCtrlByte b then 0x20 else b)
        else acc[j]? := by
  unfold sanitizeStep
  by_cases hlt : i < acc.size
  · rw [dif_pos hlt]
    by_cases hc : isCtrlByte acc[i] = true
    · rw [if_pos hc, Array.get?_set]
      by_cases hij : i = j
      · subst hij
        rw [if_pos rfl, if_pos rfl, Array.getElem?_eq_getElem hlt]
        simp [hc]
      · rw [if_neg hij, if_neg hij]
    · rw [if_neg hc]
      by_cases hij : i = j
      · subst hij
        rw [if_pos rfl, Array.getElem?_eq_getElem hlt]
        simp at hc
        simp [hc]
      · rw [if_neg hij]
  · rw [dif_neg hlt]
    by_cases hij : i = j
    · subst hij
      rw [if_pos rfl, Array.getElem?_ge _ (Nat.le_of_not_lt hlt)]
      rfl
    · rw [if_neg hij]

/-- Replacing an already replaced byte changes nothing: 0x20 is not a
control byte. -/
lemma sanByte_idem (b : Nat) :
    (if isCtrlByte (if isCtrlByte b then 0x20 else b) then 0x20
      else (if isCtrlByte b then 0x20 else b))
      = (if isCtrlByte b then 0x20 else b) := by
  by_cases h : isCtrlByte b = true
  · rw [if_pos h]
    rfl
  · rw [if_neg h, if_neg h]

/-- The whole pass characterized on reads: an index is replaced exactly when
it is visited. -/
lemma getElem?_sanitizeFold :
    ∀ (idxs : List Nat) (acc : Array Nat) (j : Nat),
      (idxs.foldl sanitizeStep acc)[j]?
        = if j ∈ idxs then
            (acc[j]?).map (fun b => if isCtrlByte b then 0x20 else b)
          else acc[j]? := by
  intro idxs
  induction idxs with
  | nil =>
    intro acc j
    rw [List.foldl_nil, if_neg (List.not_mem_nil j)]
  | cons i rest ih =>
    intro acc j
    rw [List.foldl_cons, ih (sanitizeStep acc i) j,
      getElem?_sanitizeStep acc i j]
    by_cases hji : i = j
    · subst hji
      rw [if_pos rfl, if_pos (List.mem_cons_self i rest)]
      by_cases hm : i ∈ rest
      · rw [if_pos hm]
        cases hob : acc[i]? with
        | none => rfl
        | some b => exact congrArg some (sanByte_idem b)
      · rw [if_neg hm]
    · rw [if_neg hji]
      have hmem : (j ∈ i :: rest) ↔ (j ∈ rest) := by
        constructor
        · intro hh
          rcases List.mem_cons.mp hh with hh1 | hh1
          · exact absurd hh1.symm hji
          · exact hh1
        · intro hh
          exact List.mem_cons_of_mem i hh
      by_cases hm : j ∈ rest
      · rw [if_pos hm, if_pos (hmem.mpr hm)]
      · rw [if_neg hm, if_neg (fun hh => hm (hmem.mp hh))]

/-- C9: sanitizeControlCharacters replaces exactly the bytes strictly below
0x20 other than tab (0x09), LF (0x0A) and CR (0x0D) with a space (0x20), and
leaves every other byte unchanged, preserving positions and length: the
in-place index loop computes the elementwise map of that replacement. -/
theorem sanitize_replaces_exactly_bare_control_bytes (arr : Array Nat) :
    (sanitizeControlCharacters arr).toList
      = arr.toList.map (fun b =>
          if b < 0x20 ∧ ¬(b = 0x09 ∨ b = 0x0a ∨ b = 0x0d) then 0x20 else b) := by
  apply List.ext_getElem?
  intro j
  have hL : (sanitizeControlCharacters arr).toList[j]?
      = (sanitizeControlCharacters arr)[j]? := rfl
  have hR : arr.toList[j]? = arr[j]? := rfl
  rw [hL, List.getElem?_map, hR]
  unfold sanitizeControlCharacters
  rw [getElem?_sanitizeFold (List.range arr.size) arr j]
  by_cases hj : j < arr.size
  · rw [if_pos (List.mem_range.mpr hj)]
    cases hob : arr[j]? with
    | none => rfl
    | some b =>
      show some (if isCtrlByte b then 0x20 else b)
        = some (if b < 0x20 ∧ ¬(b = 0x09 ∨ b = 0x0a ∨ b = 0x0d) then 0x20
            else b)
      congr 1
      by_cases hctl : isCtrlByte b = true
      · have hp : b < 0x20 ∧ ¬(b = 0x09 ∨ b = 0x0a ∨ b = 0x0d) := by
          simp only [isCtrlByte, Bool.and_eq_true, decide_eq_true_eq,
            bne_iff_ne] at hctl
          refine ⟨hctl.1.1.1, ?_⟩
          rintro (h | h | h)
          · exact hctl.1.1.2 h
          · exact hctl.1.2 h
          · exact hctl.2 h
        rw [if_pos hctl, if_pos hp]
      · have hp : ¬(b < 0x20 ∧ ¬(b = 0x09 ∨ b = 0x0a ∨ b = 0x0d)) := by
          simp only [isCtrlByte, Bool.and_eq_true, decide_eq_true_eq,
            bne_iff_ne] at hctl
          intro hcon
          rcases hcon with ⟨hlt, hne⟩
          exact hctl ⟨⟨⟨hlt, fun h => hne (Or.inl h)⟩,
            fun h => hne (Or.inr (Or.inl h))⟩,
            fun h => hne (Or.inr (Or.inr h))⟩
        rw [if_neg hctl, if_neg hp]
  · rw [if_neg (fun hh => hj (List.mem_range.mp hh)),
      Array.getElem?_ge arr (Nat.le_of_not_lt hj)]
    rfl

end PushLive
